import Mathlib

/-!
Shallow embedding of the camera-session controller implemented in
`src/components/CameraCapture.tsx`.

The React component keeps its session state in seven `useState` cells
(`cameras`, `selectedCamera`, `stream`, `capturedImage`, `isLoading`,
`error`, `cameraCapabilities`).  We embed that state as the record `Sess`
below, and each handler (`getCameras`, `startCamera`, `capturePhoto`,
`downloadPhoto`, `retakePhoto`, `stopCamera`) as a function on `Sess`.
Host behaviour (`navigator.mediaDevices`, the video/canvas surfaces, the
wall clock) is passed in as explicit arguments.

Two extra fields model the host world rather than React state:
`liveTracks` records which minted stream handles still have un-stopped
tracks (the side effect of `track.stop()`), and `nextId` mints fresh
stream handles for `getUserMedia`.  The `captureIso` field of
`CapturedImage` is ghost instrumentation recording the ISO rendering of
the instant of capture; the component itself stores no capture time, and
no operation reads this field.
-/

namespace CameraApp

/-- A camera entry as shown in the dropdown (`interface CameraDevice`). -/
structure CameraDevice where
  deviceId : String
  label : String
deriving Repr, DecidableEq

/-- A device record returned by `navigator.mediaDevices.enumerateDevices()`. -/
structure MediaDeviceInfo where
  deviceId : String
  label : String
  kind : String
deriving Repr, DecidableEq

/-- Negotiated maximum resolution (`interface CameraCapabilities`). -/
structure CameraCapabilities where
  width : Nat
  height : Nat
deriving Repr, DecidableEq

/-- A capability range reported by `track.getCapabilities()`; the `max`
bound may be absent (`undefined`). -/
structure CapRange where
  max : Option Nat
deriving Repr, DecidableEq

/-- What `track.getCapabilities()` reports for the video track: the
`width` and `height` ranges may each be absent entirely. -/
structure TrackCapabilities where
  width : Option CapRange
  height : Option CapRange
deriving Repr, DecidableEq

/-- A `MediaStream` handle: a minted identity plus the capability report
of its (single) video track. -/
structure MediaStream where
  id : Nat
  caps : TrackCapabilities
deriving Repr, DecidableEq

/-- The captured still image: the PNG data URL produced by
`canvas.toDataURL`, plus ghost instrumentation `captureIso` recording the
ISO rendering of the capture instant (the component stores no such time;
no operation reads this field). -/
structure CapturedImage where
  dataUrl : String
  captureIso : String
deriving Repr, DecidableEq

/-- The component's session state (the seven `useState` cells), plus the
host-world bookkeeping `liveTracks` (stream ids whose tracks have not
been stopped) and `nextId` (next fresh handle `getUserMedia` mints). -/
structure Sess where
  cameras : List CameraDevice
  selectedCamera : String
  stream : Option MediaStream
  capturedImage : Option CapturedImage
  isLoading : Bool
  error : Option String
  cameraCapabilities : Option CameraCapabilities
  liveTracks : List Nat
  nextId : Nat
deriving Repr, DecidableEq

/-- Initial state of the component: all cells at their `useState`
defaults, no stream ever minted. -/
def initSess : Sess :=
  { cameras := []
    selectedCamera := ""
    stream := none
    capturedImage := none
    isLoading := false
    error := none
    cameraCapabilities := none
    liveTracks := []
    nextId := 0 }

/-- JavaScript `device.label || fallback`: the empty string is the only
falsy string, so a blank label is replaced by the template
`` `Camera ${device.deviceId.slice(0, 8)}...` ``. -/
def deviceLabel (d : MediaDeviceInfo) : String :=
  if d.label = "" then "Camera " ++ d.deviceId.take 8 ++ "..." else d.label

/-- Mapping one enumerated device to a dropdown entry (the `.map` body in
`getCameras`). -/
def toCameraDevice (d : MediaDeviceInfo) : CameraDevice :=
  { deviceId := d.deviceId, label := deviceLabel d }

/-- The mount effect `getCameras`: filter the enumeration result to
`videoinput` devices, map them into dropdown entries, and auto-select the
first one when the list is non-empty.  `hostDevices` is the result of
`navigator.mediaDevices.enumerateDevices()` (`Except.error` when the host
query throws). -/
def getCameras (s : Sess) (hostDevices : Except Unit (List MediaDeviceInfo)) : Sess :=
  match hostDevices with
  | Except.error _ => { s with error := some "Failed to enumerate cameras" }
  | Except.ok devices =>
      let videoDevices := devices.filter (fun d => d.kind = "videoinput")
      let s1 := { s with cameras := videoDevices.map toCameraDevice }
      match videoDevices with
      | [] => s1
      | d :: _ => { s1 with selectedCamera := d.deviceId }

/-- JavaScript `v || d` on an optional number: `undefined` and `0` are
falsy, anything else is the value itself (`capabilities.width.max || 1920`). -/
def jsOrNat (v : Option Nat) (d : Nat) : Nat :=
  match v with
  | none => d
  | some 0 => d
  | some n => n

/-- The teardown at the top of `startCamera`:
`stream.getTracks().forEach(track => track.stop())`.  Note that it stops
the tracks of the current handle but does NOT clear the `stream` cell. -/
def stopTracks (s : Sess) : Sess :=
  match s.stream with
  | none => s
  | some ms => { s with liveTracks := s.liveTracks.filter (fun i => i ≠ ms.id) }

/-- `startCamera`: stop the previous stream's tracks, set
`isLoading := true` and clear `error`, then ask the host for a stream.
`hostResult = none` models `getUserMedia` rejecting; `some caps` models
success, delivering a fresh handle whose video track reports `caps`.  On
success the handle is stored and, when both capability ranges are
present, `cameraCapabilities` is populated with the per-dimension
`max || 1920` / `max || 1080` fallbacks.  On failure the catch block sets
the error text; the finally block clears `isLoading` on every path. -/
def startCamera (s : Sess) (hostResult : Option TrackCapabilities) : Sess :=
  let s1 := stopTracks s
  let s2 := { s1 with isLoading := true, error := none }
  match hostResult with
  | none =>
      { s2 with error := some "Failed to start camera", isLoading := false }
  | some caps =>
      let ms : MediaStream := { id := s2.nextId, caps := caps }
      let s3 := { s2 with
        stream := some ms
        liveTracks := ms.id :: s2.liveTracks
        nextId := s2.nextId + 1 }
      let s4 :=
        match caps.width, caps.height with
        | some w, some h =>
            let c : CameraCapabilities :=
              { width := jsOrNat w.max 1920, height := jsOrNat h.max 1080 }
            { s3 with cameraCapabilities := some c }
        | _, _ => s3
      { s4 with isLoading := false }

/-- A device selection from the dropdown: record the new id; the
`useEffect` on `selectedCamera` then runs `startCamera` whenever the new
value is non-empty. -/
def selectDevice (s : Sess) (deviceId : String) (hostResult : Option TrackCapabilities) : Sess :=
  let s1 := { s with selectedCamera := deviceId }
  if deviceId = "" then s1 else startCamera s1 hostResult

/-- The raster dimensions `capturePhoto` sizes the canvas to:
`cameraCapabilities` when known, else the preview's native reported
dimensions. -/
def captureDims (s : Sess) (videoW videoH : Nat) : Nat × Nat :=
  match s.cameraCapabilities with
  | some caps => (caps.width, caps.height)
  | none => (videoW, videoH)

/-- `capturePhoto`: guarded no-op unless the preview surface, the canvas
and a stream handle all exist and a 2D context is available; otherwise
draw the frame at `captureDims` and store the encoded data URL.
`encode w h` stands for `canvas.toDataURL('image/png', 1.0)` after drawing
at width `w` and height `h`; `nowIso` is the ghost capture instant. -/
def capturePhoto (s : Sess) (videoReady canvasReady contextOk : Bool)
    (videoW videoH : Nat) (encode : Nat → Nat → String) (nowIso : String) : Sess :=
  if videoReady = false ∨ canvasReady = false ∨ s.stream = none then s
  else if contextOk = false then s
  else
    let dims := captureDims s videoW videoH
    { s with capturedImage := some { dataUrl := encode dims.1 dims.2, captureIso := nowIso } }

/-- `:` replaced by `-` throughout a string (`.replace(/:/g, '-')`),
written as a character-list map. -/
def replaceColons (t : String) : String :=
  String.mk (t.data.map (fun c => if c = ':' then '-' else c))

/-- The filename `downloadPhoto` builds:
`` `camera-capture-${new Date().toISOString().slice(0, 19).replace(/:/g, '-')}.png` ``.
`nowIso` is the host's ISO-8601 rendering of the instant `downloadPhoto`
runs (the result of `new Date().toISOString()`). -/
def downloadFilename (nowIso : String) : String :=
  "camera-capture-" ++ replaceColons (nowIso.take 19) ++ ".png"

/-- The host-level save action `downloadPhoto` triggers (the synthetic
anchor element's `download` and `href` attributes). -/
structure DownloadAction where
  filename : String
  href : String
deriving Repr, DecidableEq

/-- `downloadPhoto`: no-op returning no action when no image exists;
otherwise triggers a save of the image's data URL under
`downloadFilename nowIso`.  The session state is returned unchanged in
both cases (the handler mutates no state cell). -/
def downloadPhoto (s : Sess) (nowIso : String) : Sess × Option DownloadAction :=
  match s.capturedImage with
  | none => (s, none)
  | some img => (s, some { filename := downloadFilename nowIso, href := img.dataUrl })

/-- The filename described by the specification: the ISO-8601 rendering
of the CAPTURE time with every colon replaced by a hyphen.  Written from
the spec's words, for comparison with `downloadFilename`. -/
def claimedDownloadFilename (captureIso : String) : String :=
  "camera-capture-" ++ replaceColons captureIso ++ ".png"

/-- `retakePhoto`: clears the captured image cell only. -/
def retakePhoto (s : Sess) : Sess :=
  { s with capturedImage := none }

/-- `stopCamera`: when a stream handle exists, stop its tracks and clear
the handle; in every case clear the captured image. -/
def stopCamera (s : Sess) : Sess :=
  match s.stream with
  | none => { s with capturedImage := none }
  | some ms =>
      { s with
        liveTracks := s.liveTracks.filter (fun i => i ≠ ms.id)
        stream := none
        capturedImage := none }

/-- One user-or-host event driving the component. Host responses ride
along with the event that consumes them. -/
inductive Op where
  | enumerate (hostDevices : Except Unit (List MediaDeviceInfo))
      (hostResult : Option TrackCapabilities)
  | select (deviceId : String) (hostResult : Option TrackCapabilities)
  | capture (videoReady canvasReady contextOk : Bool) (videoW videoH : Nat)
      (encode : Nat → Nat → String) (nowIso : String)
  | retake
  | stop

/-- Step function: dispatch one event to the corresponding handler.  An
`enumerate` that auto-selects a device triggers the `selectedCamera`
effect, hence `startCamera`, just as the mount sequence does. -/
def step (s : Sess) (op : Op) : Sess :=
  match op with
  | Op.enumerate hostDevices hostResult =>
      let s1 := getCameras s hostDevices
      if s1.selectedCamera = "" then s1 else startCamera s1 hostResult
  | Op.select deviceId hostResult => selectDevice s deviceId hostResult
  | Op.capture vr cr ck vw vh encode nowIso =>
      capturePhoto s vr cr ck vw vh encode nowIso
  | Op.retake => retakePhoto s
  | Op.stop => stopCamera s

/-- Running a whole event sequence from a state. -/
def run (s : Sess) (ops : List Op) : Sess :=
  List.foldl step s ops

/-- The resource invariant: every handle with live tracks is the current
handle, the mint counter is ahead of the current handle, and the live
list has no duplicates.  Together these bound the live list to length one. -/
def Inv (s : Sess) : Prop :=
  (∀ i ∈ s.liveTracks, ∃ ms, s.stream = some ms ∧ ms.id = i) ∧
  (∀ ms, s.stream = some ms → ms.id < s.nextId) ∧
  s.liveTracks.Nodup

theorem inv_initSess : Inv initSess := by
  refine ⟨?_, ?_, ?_⟩
  · intro i hi
    simp [initSess] at hi
  · intro ms hms
    simp [initSess] at hms
  · simp [initSess]

theorem inv_of_frame (s t : Sess) (hl : t.liveTracks = s.liveTracks)
    (hs : t.stream = s.stream) (hn : t.nextId = s.nextId) (h : Inv s) : Inv t := by
  obtain ⟨h1, h2, h3⟩ := h
  refine ⟨?_, ?_, ?_⟩
  · intro i hi
    rw [hs]
    exact h1 i (by rwa [hl] at hi)
  · intro ms hms
    rw [hn]
    exact h2 ms (by rwa [hs] at hms)
  · rwa [hl]

theorem liveTracks_nil_of_stream_none (s : Sess)
    (h1 : ∀ i ∈ s.liveTracks, ∃ ms, s.stream = some ms ∧ ms.id = i)
    (hs : s.stream = none) : s.liveTracks = [] := by
  cases hl : s.liveTracks with
  | nil => rfl
  | cons a t =>
    exfalso
    obtain ⟨ms, hms, _⟩ := h1 a (by rw [hl]; exact List.mem_cons_self a t)
    rw [hs] at hms
    exact Option.noConfusion hms

theorem filter_live_nil (s : Sess) (ms : MediaStream)
    (h1 : ∀ i ∈ s.liveTracks, ∃ m, s.stream = some m ∧ m.id = i)
    (hs : s.stream = some ms) :
    s.liveTracks.filter (fun i => i ≠ ms.id) = [] := by
  apply List.filter_eq_nil_iff.mpr
  intro a ha
  obtain ⟨m, hm, hid⟩ := h1 a ha
  rw [hs] at hm
  injection hm with he
  rw [← he] at hid
  rw [← hid]
  simp

theorem stopTracks_liveTracks (s : Sess) (h : Inv s) :
    (stopTracks s).liveTracks = [] := by
  obtain ⟨h1, _, _⟩ := h
  unfold stopTracks
  cases hs : s.stream with
  | none => exact liveTracks_nil_of_stream_none s h1 hs
  | some ms => exact filter_live_nil s ms h1 hs

theorem stopTracks_world (s : Sess) :
    (stopTracks s).stream = s.stream ∧ (stopTracks s).nextId = s.nextId ∧
    (stopTracks s).selectedCamera = s.selectedCamera := by
  unfold stopTracks
  cases hs : s.stream <;> simp [hs]

theorem inv_startCamera (s : Sess) (r : Option TrackCapabilities) (h : Inv s) :
    Inv (startCamera s r) := by
  have hlt : (stopTracks s).liveTracks = [] := stopTracks_liveTracks s h
  obtain ⟨hstream, hnext, _⟩ := stopTracks_world s
  cases r with
  | none =>
    refine ⟨?_, ?_, ?_⟩
    · intro i hi
      simp only [startCamera, hlt] at hi
      exact absurd hi (List.not_mem_nil i)
    · intro ms hms
      simp only [startCamera] at hms ⊢
      rw [hstream] at hms
      rw [hnext]
      exact h.2.1 ms hms
    · simp only [startCamera, hlt]
      exact List.nodup_nil
  | some caps =>
    have hres : (startCamera s (some caps)).liveTracks = [(stopTracks s).nextId] ∧
        (startCamera s (some caps)).stream =
          some { id := (stopTracks s).nextId, caps := caps } ∧
        (startCamera s (some caps)).nextId = (stopTracks s).nextId + 1 := by
      simp only [startCamera, hlt]
      cases hw : caps.width <;> cases hh : caps.height <;> simp
    obtain ⟨r1, r2, r3⟩ := hres
    refine ⟨?_, ?_, ?_⟩
    · intro i hi
      rw [r1] at hi
      rw [List.mem_singleton] at hi
      exact ⟨{ id := (stopTracks s).nextId, caps := caps }, r2, hi.symm⟩
    · intro ms hms
      rw [r2] at hms
      injection hms with he
      rw [← he, r3]
      exact Nat.lt_succ_self _
    · rw [r1]
      exact List.nodup_singleton _

theorem getCameras_world (s : Sess) (hd : Except Unit (List MediaDeviceInfo)) :
    (getCameras s hd).liveTracks = s.liveTracks ∧
    (getCameras s hd).stream = s.stream ∧
    (getCameras s hd).nextId = s.nextId := by
  unfold getCameras
  cases hd with
  | error e => simp
  | ok ds =>
    cases hv : ds.filter (fun d => d.kind = "videoinput") with
    | nil => simp [hv]
    | cons d t => simp [hv]

theorem capturePhoto_world (s : Sess) (vr cr ck : Bool) (vw vh : Nat)
    (encode : Nat → Nat → String) (nowIso : String) :
    (capturePhoto s vr cr ck vw vh encode nowIso).liveTracks = s.liveTracks ∧
    (capturePhoto s vr cr ck vw vh encode nowIso).stream = s.stream ∧
    (capturePhoto s vr cr ck vw vh encode nowIso).nextId = s.nextId := by
  unfold capturePhoto
  split
  · exact ⟨rfl, rfl, rfl⟩
  · split
    · exact ⟨rfl, rfl, rfl⟩
    · exact ⟨rfl, rfl, rfl⟩

theorem inv_stopCamera (s : Sess) (h : Inv s) : Inv (stopCamera s) := by
  obtain ⟨h1, h2, h3⟩ := h
  have hlt : (stopCamera s).liveTracks = [] := by
    unfold stopCamera
    cases hs : s.stream with
    | none => exact liveTracks_nil_of_stream_none s h1 hs
    | some ms => exact filter_live_nil s ms h1 hs
  have hst : (stopCamera s).stream = none := by
    unfold stopCamera
    cases hs : s.stream <;> simp [hs]
  refine ⟨?_, ?_, ?_⟩
  · intro i hi
    rw [hlt] at hi
    exact absurd hi (List.not_mem_nil i)
  · intro ms hms
    rw [hst] at hms
    exact Option.noConfusion hms
  · rw [hlt]
    exact List.nodup_nil

theorem inv_step (s : Sess) (op : Op) (h : Inv s) : Inv (step s op) := by
  cases op with
  | enumerate hd hr =>
    obtain ⟨w1, w2, w3⟩ := getCameras_world s hd
    have hg : Inv (getCameras s hd) := inv_of_frame s _ w1 w2 w3 h
    simp only [step]
    split
    · exact hg
    · exact inv_startCamera _ hr hg
  | select d hr =>
    have hg : Inv { s with selectedCamera := d } := inv_of_frame s _ rfl rfl rfl h
    simp only [step, selectDevice]
    split
    · exact hg
    · exact inv_startCamera _ hr hg
  | capture vr cr ck vw vh encode nowIso =>
    obtain ⟨w1, w2, w3⟩ := capturePhoto_world s vr cr ck vw vh encode nowIso
    exact inv_of_frame s _ w1 w2 w3 h
  | retake => exact inv_of_frame s _ rfl rfl rfl h
  | stop => exact inv_stopCamera s h

theorem inv_run (s : Sess) (ops : List Op) (h : Inv s) : Inv (run s ops) := by
  induction ops generalizing s with
  | nil => exact h
  | cons op rest ih => exact ih (step s op) (inv_step s op h)

theorem liveTracks_len_le_one (s : Sess) (h : Inv s) : s.liveTracks.length ≤ 1 := by
  obtain ⟨h1, _, h3⟩ := h
  cases hl : s.liveTracks with
  | nil => simp
  | cons a t =>
    cases ht : t with
    | nil => simp
    | cons b t2 =>
      exfalso
      obtain ⟨ms, hms, hid⟩ := h1 a (by rw [hl]; exact List.mem_cons_self a t)
      obtain ⟨ms2, hms2, hid2⟩ := h1 b
        (by rw [hl, ht]; exact List.mem_cons_of_mem a (List.mem_cons_self b t2))
      rw [hms] at hms2
      injection hms2 with he
      have hab : a = b := by rw [← hid, ← hid2, he]
      rw [hl, ht] at h3
      rw [List.nodup_cons] at h3
      exact h3.1 (by rw [hab]; exact List.mem_cons_self b t2)

theorem stopTracks_cameraCapabilities (s : Sess) :
    (stopTracks s).cameraCapabilities = s.cameraCapabilities := by
  unfold stopTracks
  cases hs : s.stream <;> simp [hs]

/-- A demonstration stream handle (track reporting no capability ranges). -/
def msDemo : MediaStream := { id := 0, caps := { width := none, height := none } }

/-- A state in which a previously acquired stream is open. -/
def sPrev : Sess := { initSess with stream := some msDemo, liveTracks := [0], nextId := 1 }

/-- A demonstration captured image taken on 2024-01-01. -/
def imgDemo : CapturedImage :=
  { dataUrl := "data-url", captureIso := "2024-01-01T00:00:00.000Z" }

/-- A state holding a captured image taken on 2024-01-01. -/
def sImg : Sess := { initSess with capturedImage := some imgDemo }

/-- A state with an open stream and a populated capability record. -/
def sCaps : Sess :=
  { sPrev with cameraCapabilities := some { width := 1280, height := 720 } }

/-- A capability report with neither a width nor a height range. -/
def capsNone : TrackCapabilities := { width := none, height := none }

/-- A capability report with both ranges and explicit maxima. -/
def capsFull : TrackCapabilities :=
  { width := some { max := some 1280 }, height := some { max := some 720 } }

/-- C1 (amended): when `startCamera` fails (the host rejects the stream
request), the error text is set to the acquisition-failure message,
`isLoading` ends false, the device selection is unchanged, and the
`stream` cell keeps its prior value: it stays unset if it was unset, but
when a previous stream was open its handle — with its tracks stopped —
remains in state rather than being unset. -/
theorem startCamera_failure_state (s : Sess) :
    (startCamera s none).error = some "Failed to start camera" ∧
    (startCamera s none).isLoading = false ∧
    (startCamera s none).selectedCamera = s.selectedCamera ∧
    (startCamera s none).stream = s.stream ∧
    (∀ ms, s.stream = some ms → ms.id ∉ (startCamera s none).liveTracks) := by
  obtain ⟨w1, w2, w3⟩ := stopTracks_world s
  refine ⟨rfl, rfl, w3, w1, ?_⟩
  intro ms hms
  show ms.id ∉ (stopTracks s).liveTracks
  unfold stopTracks
  rw [hms]
  simp [List.mem_filter]

/-- Witness for C1: the failure postconditions at a state holding a
previously opened stream. -/
theorem startCamera_failure_state_witness :
    sPrev.stream = some msDemo ∧
    (0 : Nat) ∉ (startCamera sPrev none).liveTracks :=
  ⟨rfl, (startCamera_failure_state sPrev).2.2.2.2 msDemo rfl⟩

/-- C1 counterexample: with a previous stream open, a failed start leaves
the old handle in the `stream` cell — the ActiveStream field is not
unset, contradicting the claim. -/
theorem startCamera_failure_stale_handle :
    (startCamera sPrev none).stream = some msDemo ∧
    (startCamera sPrev none).stream ≠ none :=
  ⟨rfl, by decide⟩

/-- C2 (amended): `downloadPhoto` with no captured image is a no-op
producing no save action and touching no state; with a captured image it
leaves the state unchanged and saves the image's data URL under
`camera-capture-<ts>.png`, where `<ts>` is the first 19 characters of the
ISO-8601 rendering of the instant the download runs (date and seconds;
milliseconds and zone dropped) with each `:` replaced by `-` — the
timestamp is the download instant, not the capture time. -/
theorem downloadPhoto_behavior (s : Sess) (nowIso : String) :
    (s.capturedImage = none → downloadPhoto s nowIso = (s, none)) ∧
    (∀ img, s.capturedImage = some img →
      downloadPhoto s nowIso =
        (s, some ⟨"camera-capture-" ++ replaceColons (nowIso.take 19) ++ ".png",
          img.dataUrl⟩)) := by
  constructor
  · intro h
    unfold downloadPhoto
    rw [h]
  · intro img h
    unfold downloadPhoto
    rw [h]
    rfl

/-- Witness for C2: the download action at a concrete image and instant. -/
theorem downloadPhoto_behavior_witness :
    sImg.capturedImage = some imgDemo ∧
    downloadPhoto sImg "2024-01-02T03:04:05.678Z" =
      (sImg, some ⟨"camera-capture-" ++
          replaceColons (("2024-01-02T03:04:05.678Z" : String).take 19) ++ ".png",
        imgDemo.dataUrl⟩) :=
  ⟨rfl, (downloadPhoto_behavior sImg "2024-01-02T03:04:05.678Z").2 imgDemo rfl⟩

set_option maxRecDepth 4096 in
/-- C2 counterexample: the code derives the filename from the download
instant truncated to 19 characters, while the claim's filename — the
full ISO rendering of the capture time with colons replaced — differs. -/
theorem downloadPhoto_filename_mismatch :
    (downloadPhoto sImg "2024-01-02T03:04:05.678Z").2.map DownloadAction.filename =
      some "camera-capture-2024-01-02T03-04-05.png" ∧
    claimedDownloadFilename "2024-01-01T00:00:00.000Z" =
      "camera-capture-2024-01-01T00-00-00.000Z.png" ∧
    ("camera-capture-2024-01-02T03-04-05.png" : String) ≠
      "camera-capture-2024-01-01T00-00-00.000Z.png" :=
  ⟨by decide, by decide, by decide⟩

/-- C3 (amended): on a successful `startCamera`, `cameraCapabilities` is
populated only when the track reports both a width and a height
capability range, using per-dimension fallbacks 1920/1080 when a present
range has no (or zero) max; when either range is absent the field is left
unchanged — in particular it stays unset if it was unset — rather than
being populated with the fallback values. -/
theorem startCamera_capabilities_cases (s : Sess) (caps : TrackCapabilities) :
    (∀ w h, caps.width = some w → caps.height = some h →
      (startCamera s (some caps)).cameraCapabilities =
        some { width := jsOrNat w.max 1920, height := jsOrNat h.max 1080 }) ∧
    ((caps.width = none ∨ caps.height = none) →
      (startCamera s (some caps)).cameraCapabilities = s.cameraCapabilities) := by
  have hbase := stopTracks_cameraCapabilities s
  obtain ⟨cw, ch⟩ := caps
  constructor
  · intro w h hw hh
    cases cw with
    | none => exact absurd hw (by simp)
    | some wr =>
      cases ch with
      | none => exact absurd hh (by simp)
      | some hr =>
        have hw2 : wr = w := by
          have hx : some wr = some w := hw
          injection hx
        have hh2 : hr = h := by
          have hx : some hr = some h := hh
          injection hx
        subst hw2
        subst hh2
        rfl
  · intro hor
    cases cw with
    | none =>
      cases ch with
      | none => exact hbase
      | some hr => exact hbase
    | some wr =>
      cases ch with
      | none => exact hbase
      | some hr =>
        exfalso
        rcases hor with h | h <;> exact Option.noConfusion h

/-- Witness for C3: both the populated case (ranges present) and the
left-unchanged case (ranges absent) at concrete capability reports. -/
theorem startCamera_capabilities_cases_witness :
    capsFull.width = some { max := some 1280 } ∧
    capsFull.height = some { max := some 720 } ∧
    (startCamera initSess (some capsFull)).cameraCapabilities =
      some { width := jsOrNat (some 1280) 1920, height := jsOrNat (some 720) 1080 } ∧
    (capsNone.width = none ∨ capsNone.height = none) ∧
    (startCamera initSess (some capsNone)).cameraCapabilities =
      initSess.cameraCapabilities :=
  ⟨rfl, rfl,
   (startCamera_capabilities_cases initSess capsFull).1
     { max := some 1280 } { max := some 720 } rfl rfl,
   Or.inl rfl,
   (startCamera_capabilities_cases initSess capsNone).2 (Or.inl rfl)⟩

/-- C3 counterexample: a successful start whose track reports no
width/height maxima at all leaves `cameraCapabilities` unset — it is not
populated with the 1920×1080 fallback, contradicting the claim. -/
theorem startCamera_capabilities_unset :
    (startCamera initSess (some capsNone)).cameraCapabilities = none ∧
    (startCamera initSess (some capsNone)).cameraCapabilities ≠
      some { width := 1920, height := 1080 } :=
  ⟨rfl, by decide⟩

/-- C4 (amended): a blank host label is replaced by the synthesized label
`"Camera " ++ first 8 characters of deviceId ++ "..."` — the code appends
a literal ellipsis; for the device list `[(a, blank), (b, Front)]` the
displayed labels are `["Camera a...", "Front"]` and the auto-selected
device id is `"a"`. -/
theorem listDevices_label_fallback :
    (∀ d : MediaDeviceInfo, d.label = "" →
      deviceLabel d = "Camera " ++ d.deviceId.take 8 ++ "...") ∧
    ((getCameras initSess (Except.ok
        [{ deviceId := "a", label := "", kind := "videoinput" },
         { deviceId := "b", label := "Front", kind := "videoinput" }])).cameras.map
        CameraDevice.label = ["Camera a...", "Front"]) ∧
    (getCameras initSess (Except.ok
        [{ deviceId := "a", label := "", kind := "videoinput" },
         { deviceId := "b", label := "Front", kind := "videoinput" }])).selectedCamera =
      "a" := by
  refine ⟨?_, ?_, ?_⟩
  · intro d h
    simp [deviceLabel, h]
  · rfl
  · rfl

/-- Witness for C4: the synthesized label at a concrete blank-labelled
device. -/
theorem listDevices_label_fallback_witness :
    ({ deviceId := "a", label := "", kind := "videoinput" } : MediaDeviceInfo).label = "" ∧
    deviceLabel { deviceId := "a", label := "", kind := "videoinput" } =
      "Camera " ++ ("a" : String).take 8 ++ "..." :=
  ⟨rfl, listDevices_label_fallback.1
      { deviceId := "a", label := "", kind := "videoinput" } rfl⟩

/-- C4 counterexample: the displayed labels for the claim's device list
are not `["Camera a", "Front"]` (the synthesized label carries a trailing
ellipsis). -/
theorem listDevices_label_mismatch :
    (getCameras initSess (Except.ok
        [{ deviceId := "a", label := "", kind := "videoinput" },
         { deviceId := "b", label := "Front", kind := "videoinput" }])).cameras.map
        CameraDevice.label ≠ ["Camera a", "Front"] := by
  decide

/-- C5 (amended): `stopCamera` clears the stream handle and the captured
image and stops the stream's tracks, but it does NOT discard
`cameraCapabilities`: that field survives `stopCamera` unchanged, so a
capability record can outlive the stream it was derived from. -/
theorem stopCamera_fields (s : Sess) :
    (stopCamera s).stream = none ∧
    (stopCamera s).capturedImage = none ∧
    (stopCamera s).cameraCapabilities = s.cameraCapabilities ∧
    (∀ ms, s.stream = some ms → ms.id ∉ (stopCamera s).liveTracks) := by
  unfold stopCamera
  cases hs : s.stream with
  | none =>
    refine ⟨rfl, rfl, rfl, ?_⟩
    intro ms hms
    exact Option.noConfusion hms
  | some ms0 =>
    refine ⟨rfl, rfl, rfl, ?_⟩
    intro ms hms
    injection hms with he
    rw [← he]
    simp [List.mem_filter]

/-- Witness for C5: stopping from a state with an open stream. -/
theorem stopCamera_fields_witness :
    sPrev.stream = some msDemo ∧
    (0 : Nat) ∉ (stopCamera sPrev).liveTracks :=
  ⟨rfl, (stopCamera_fields sPrev).2.2.2 msDemo rfl⟩

/-- C5 counterexample: after `stopCamera` from a state with a populated
capability record, `cameraCapabilities` is still set — it is not
discarded, contradicting the claim. -/
theorem stopCamera_keeps_capabilities :
    (stopCamera sCaps).cameraCapabilities = some { width := 1280, height := 720 } ∧
    (stopCamera sCaps).cameraCapabilities ≠ none :=
  ⟨rfl, by decide⟩

/-- C6: at most one stream with live tracks exists at any time — for
every event sequence from the initial state the list of live handles has
length at most one — and whenever `startCamera` begins with an existing
stream, the teardown stops all of that stream's tracks before the new
stream request is issued to the host. -/
theorem single_live_stream :
    (∀ ops : List Op, ((run initSess ops).liveTracks).length ≤ 1) ∧
    (∀ s : Sess, ∀ ms : MediaStream, s.stream = some ms →
      ms.id ∉ (stopTracks s).liveTracks) := by
  constructor
  · intro ops
    exact liveTracks_len_le_one _ (inv_run initSess ops inv_initSess)
  · intro s ms hms
    unfold stopTracks
    rw [hms]
    simp [List.mem_filter]

/-- Witness for C6: a concrete two-selection trace, and the teardown at a
state with an open stream. -/
theorem single_live_stream_witness :
    ((run initSess
        [Op.select "a" (some capsNone), Op.select "b" none]).liveTracks).length ≤ 1 ∧
    sPrev.stream = some msDemo ∧
    (0 : Nat) ∉ (stopTracks sPrev).liveTracks :=
  ⟨single_live_stream.1 [Op.select "a" (some capsNone), Op.select "b" none],
   rfl, single_live_stream.2 sPrev msDemo rfl⟩

/-- C7: `capturePhoto` with no stream handle, or with the preview
surface, canvas or 2D context unavailable, is a complete no-op: the
session state is returned exactly unchanged and no captured image is
produced. -/
theorem capturePhoto_noop (s : Sess) (vr cr ck : Bool) (vw vh : Nat)
    (encode : Nat → Nat → String) (nowIso : String)
    (h : s.stream = none ∨ vr = false ∨ cr = false ∨ ck = false) :
    capturePhoto s vr cr ck vw vh encode nowIso = s := by
  unfold capturePhoto
  rcases h with h | h | h | h
  · rw [if_pos (Or.inr (Or.inr h))]
  · rw [if_pos (Or.inl h)]
  · rw [if_pos (Or.inr (Or.inl h))]
  · simp [h]

/-- Witness for C7: a capture attempt from the initial state (no stream)
returns the state unchanged. -/
theorem capturePhoto_noop_witness :
    initSess.stream = none ∧
    capturePhoto initSess true true true 640 480 (fun _ _ => "img") "T" = initSess :=
  ⟨rfl, capturePhoto_noop initSess true true true 640 480 (fun _ _ => "img") "T"
      (Or.inl rfl)⟩

/-- C8: `stopCamera` is idempotent — calling it twice equals calling it
once — and calling it with no stream present is a safe no-op that only
clears the captured image. -/
theorem stopCamera_idem (s : Sess) :
    stopCamera (stopCamera s) = stopCamera s ∧
    (s.stream = none → stopCamera s = { s with capturedImage := none }) := by
  have hnone : ∀ t : Sess, t.stream = none →
      stopCamera t = { t with capturedImage := none } := by
    intro t ht
    unfold stopCamera
    rw [ht]
  constructor
  · cases hs : s.stream with
    | none =>
      rw [hnone s hs,
        hnone _ (show ({ s with capturedImage := none } : Sess).stream = none from hs)]
    | some ms =>
      have h1 : stopCamera s =
          { s with liveTracks := s.liveTracks.filter (fun i => i ≠ ms.id),
                   stream := none, capturedImage := none } := by
        unfold stopCamera
        rw [hs]
      rw [h1, hnone _ rfl]
  · intro h
    exact hnone s h

/-- Witness for C8: stopping from the (streamless) initial state. -/
theorem stopCamera_idem_witness :
    initSess.stream = none ∧
    stopCamera initSess = { initSess with capturedImage := none } :=
  ⟨rfl, (stopCamera_idem initSess).2 rfl⟩

/-- C9: `capturePhoto` immediately followed by `retakePhoto` equals a
pure clear of the `capturedImage` cell: the image ends unset and the
stream, the selection and every other state cell are exactly as before
the capture/retake pair, for every prior state and host condition. -/
theorem capture_retake_frame (s : Sess) (vr cr ck : Bool) (vw vh : Nat)
    (encode : Nat → Nat → String) (nowIso : String) :
    retakePhoto (capturePhoto s vr cr ck vw vh encode nowIso) =
      { s with capturedImage := none } := by
  unfold capturePhoto retakePhoto
  split
  · rfl
  · split
    · rfl
    · rfl

/-- C10: a successful capture mutates only the `capturedImage` cell,
setting it to the frame encoded at the computed raster dimensions — any
previously captured image is simply replaced — and every other state
cell is untouched. -/
theorem capturePhoto_success_frame (s : Sess) (vw vh : Nat)
    (encode : Nat → Nat → String) (nowIso : String) (hs : s.stream ≠ none) :
    capturePhoto s true true true vw vh encode nowIso =
      { s with capturedImage := some ⟨encode (captureDims s vw vh).1
          (captureDims s vw vh).2, nowIso⟩ } := by
  unfold capturePhoto
  rw [if_neg (by simp [hs]), if_neg (by simp)]

/-- Witness for C10: a successful capture at a state with an open stream,
replacing nothing but the image cell. -/
theorem capturePhoto_success_frame_witness :
    sPrev.stream ≠ none ∧
    capturePhoto sPrev true true true 640 480 (fun _ _ => "img") "T" =
      { sPrev with capturedImage := some ⟨(fun _ _ => "img")
          (captureDims sPrev 640 480).1 (captureDims sPrev 640 480).2, "T"⟩ } :=
  ⟨by decide, capturePhoto_success_frame sPrev 640 480 (fun _ _ => "img") "T" (by decide)⟩

end CameraApp
